import Mathlib

/-!
Verification of the chimera schema registry and migration engine.

Shallow embedding of:
* `src/src/orm/schema.js`  — `ChimeraSchema` association operations
  (`belongsTo`, `hasMany`, `hasOne`, `belongsToMany`, `associate`,
  `_buildJunction`);
* `src/src/orm/registry.js` — `ModelRegistry` (`_register`, `isRegistered`,
  `isCompiled`, `_namespaceToScope`, `_compile`, `compile`,
  `_loadDynamicSchemas`, `_idsToNamespace`);
* the Migration Dependency Engine (`migrate`), whose implementation is not
  in the repository snapshot (only its tests under `src/test/orm` are), and
  which is therefore modelled from the spec, §4.3.

JavaScript strings are modelled as `String`, documents as structures,
mongoose's model store as a list of model names, and thrown errors as
`Except` results.
-/

namespace Chimera

/-- Models JavaScript `x || d` defaulting for an optional string option:
`undefined` and the empty string are falsy, any other string is returned
as is. -/
def orDefault (o : Option String) (d : String) : String :=
  match o with
  | none => d
  | some s => if s = "" then d else s

/-- Models JavaScript falsiness of an optional string (`!x`): true exactly
for `undefined` and the empty string. -/
def optFalsy (o : Option String) : Bool :=
  match o with
  | none => true
  | some s => decide (s = "")

/-- Models lodash `camelCase` (an external library dependency, out of scope
per spec §1): for the identifier-like model names used by this repository
it lower-cases the first character.  No claim depends on its internals. -/
def camelCase (s : String) : String :=
  match s.data with
  | [] => ""
  | c :: cs => String.mk (c.toLower :: cs)

/-- A mongoose virtual relation accessor, as declared by
`this.virtual(associationName, association)` in `src/src/orm/schema.js`. -/
structure Virtual where
  name : String
  ref : String
  localField : String
  foreignField : String
  justOne : Bool
deriving DecidableEq, Repr

/-- Replace the virtual with the same accessor name, or append; models
assignment into mongoose's name-keyed virtuals object. -/
def upsertVirtual : List Virtual → Virtual → List Virtual
  | [], v => [v]
  | w :: ws, v => if w.name = v.name then v :: ws else w :: upsertVirtual ws v

/-- A `ChimeraSchema` (src/src/orm/schema.js): the schema's naming identity,
its field paths, its declared virtual accessors, and the `console.warn`
messages emitted while mutating it (the warning log is carried here so the
operations stay pure). -/
structure ChimeraSchema where
  name : String
  paths : List String
  virtuals : List Virtual
  warnings : List String
deriving DecidableEq, Repr

/-- Models `new ChimeraSchema(name)`: a fresh schema; mongoose seeds the `_id`
path and, since timestamps default to on, `createdAt`/`updatedAt`. -/
def mkChimeraSchema (name : String) : ChimeraSchema :=
  ⟨name, ["_id", "createdAt", "updatedAt"], [], []⟩

def setVirtual (s : ChimeraSchema) (v : Virtual) : ChimeraSchema :=
  { s with virtuals := upsertVirtual s.virtuals v }

def getVirtual (s : ChimeraSchema) (n : String) : Option Virtual :=
  s.virtuals.find? (fun w => decide (w.name = n))

/-- Errors thrown by the embedded code.  `schemaDefinitionError` models
`ChimeraSchemaError` (the spec's `SchemaDefinitionError`); the others model
the JavaScript runtime errors reachable in `registry.js`. -/
inductive JsError where
  | schemaDefinitionError (message : String)
  | referenceError (message : String)
  | typeError (message : String)
  | overwriteModelError (message : String)
  | invalidModelName
deriving DecidableEq, Repr

/-- The options object taken by the four association declarations. -/
structure AssocOptions where
  localField : Option String := none
  foreignField : Option String := none
  as : Option String := none
  through : Option String := none
deriving DecidableEq, Repr

/-- Models `ChimeraSchema#belongsTo` (src/src/orm/schema.js lines 47-78): requires a
non-empty model name; adds a local foreign-key field named
`localField || (as || camelCase(modelName)) + "Id"` unless that path exists
(in which case it only warns); always declares the singular virtual. -/
def belongsTo (s : ChimeraSchema) (modelName : String) (options : AssocOptions) :
    Except JsError ChimeraSchema :=
  if modelName = "" then
    .error (.schemaDefinitionError "Missing required parameter modelName.")
  else
    let ref := modelName
    let localField := orDefault options.localField (orDefault options.as (camelCase modelName) ++ "Id")
    let s₁ :=
      if localField ∈ s.paths then
        { s with warnings := s.warnings ++
            ["Unable to register new association path as it already exists: " ++
              s.name ++ "." ++ localField] }
      else
        { s with paths := s.paths ++ [localField] }
    let associationName := orDefault options.as (camelCase modelName)
    .ok (setVirtual s₁ ⟨associationName, ref, localField, orDefault options.foreignField "_id", true⟩)

/-- Models `ChimeraSchema#hasMany` (src/src/orm/schema.js lines 89-112): requires a
non-empty model name and a truthy `foreignField` option; declares a plural
virtual and adds no local field. -/
def hasMany (s : ChimeraSchema) (modelName : String) (options : AssocOptions) :
    Except JsError ChimeraSchema :=
  if modelName = "" then
    .error (.schemaDefinitionError "Missing required parameter modelName.")
  else if optFalsy options.foreignField then
    .error (.schemaDefinitionError "Missing required option foreignField.")
  else
    let foreignField := options.foreignField.getD ""
    let localField := orDefault options.localField "_id"
    let associationName := orDefault options.as (camelCase modelName ++ "Set")
    .ok (setVirtual s ⟨associationName, modelName, localField, foreignField, false⟩)

/-- Models `ChimeraSchema#hasOne` (src/src/orm/schema.js lines 125-149): same
requirements as `hasMany` but the virtual is singular (`justOne`). -/
def hasOne (s : ChimeraSchema) (modelName : String) (options : AssocOptions) :
    Except JsError ChimeraSchema :=
  if modelName = "" then
    .error (.schemaDefinitionError "Missing required parameter modelName.")
  else if optFalsy options.foreignField then
    .error (.schemaDefinitionError "Missing required option foreignField.")
  else
    let foreignField := options.foreignField.getD ""
    let localField := orDefault options.localField "_id"
    let associationName := orDefault options.as (camelCase modelName)
    .ok (setVirtual s ⟨associationName, modelName, localField, foreignField, true⟩)

/-- Models `ChimeraSchema#belongsToMany` (src/src/orm/schema.js lines 161-180):
declares a plural virtual pointing at the (implicit or explicit) junction
model. -/
def belongsToMany (s : ChimeraSchema) (modelName : String) (options : AssocOptions) :
    Except JsError ChimeraSchema :=
  if modelName = "" then
    .error (.schemaDefinitionError "Missing required parameter modelName.")
  else
    let through := orDefault options.through (s.name ++ "_" ++ modelName)
    let localField := orDefault options.localField "_id"
    let foreignField := orDefault options.foreignField (camelCase s.name ++ "Id")
    let associationName := orDefault options.as (modelName ++ "Set")
    .ok (setVirtual s ⟨associationName, through, localField, foreignField, false⟩)

/-! ### The model registry (src/src/orm/registry.js)

`ModelRegistry` stores registered models as own properties of the instance
(`this[namespace] = {modelClass, schema, discriminators}`), keeps a
`_modelCache`, and compiles schemas into mongoose's global name-keyed model
store.  The instance also inherits `EventEmitter.prototype` and
`Object.prototype` members, which the `in` operator used by `isRegistered`
can see. -/

/-- The `modelClass` argument of `_register`: a string or a class. -/
inductive ModelClassV where
  | str (s : String)
  | cls
deriving DecidableEq, Repr

/-- One registry entry `{modelClass, schema, discriminators}`; an absent
`discriminators` argument is modelled as the empty list (both are falsy to
the `if (registered.discriminators)` guard in `_compile`). -/
structure Entry where
  modelClass : Option ModelClassV
  schema : ChimeraSchema
  discriminators : List (String × ChimeraSchema)
deriving DecidableEq, Repr

/-- Replace the value at an existing key, or append; models JavaScript
object property assignment (re-assignment keeps the key's original
position). -/
def upsert {α : Type} : List (String × α) → String → α → List (String × α)
  | [], k, v => [(k, v)]
  | p :: ps, k, v => if p.1 = k then (k, v) :: ps else p :: upsert ps k v

/-- Reads `l[k]` for a name-keyed object modelled as an association list. -/
def assocGet {α : Type} (l : List (String × α)) (k : String) : Option α :=
  (l.find? (fun p => decide (p.1 = k))).map (·.2)

/-- The registry's mutable state: its registered entries (own non-underscore
properties, in insertion order), the `_modelCache` (namespace to the cached
dynamic document's id; `none` for the empty static placeholders), and
mongoose's compiled model names (`mongoose.modelNames()`). -/
structure RegState where
  entries : List (String × Entry)
  modelCache : List (String × Option Nat)
  models : List String
deriving DecidableEq, Repr

/-- The state right after `new ModelRegistry()`. -/
def initState : RegState := ⟨[], [], []⟩

/-- Own properties assigned by the constructors (`EventEmitter` sets
`_events`, `_eventsCount`, `_maxListeners`; `ModelRegistry` sets
`_modelCache`) other than the registered namespaces. -/
def ownInternalProps : List String :=
  ["_events", "_eventsCount", "_maxListeners", "_modelCache"]

/-- Prototype-chain members visible to the `in` operator on a
`ModelRegistry` instance: `ModelRegistry.prototype` methods,
`EventEmitter.prototype` members, and `Object.prototype` members
(a representative list). -/
def prototypeProps : List String :=
  ["bootstrap", "compile", "model", "isRegistered", "isCompiled",
   "_loadGlobalPlugins", "_loadStaticSchemas", "_loadDynamicSchemas",
   "_register", "_applyAssociations", "_compile", "_idsToNamespace",
   "_namespaceToScope",
   "addListener", "emit", "eventNames", "getMaxListeners", "listenerCount",
   "listeners", "off", "on", "once", "prependListener",
   "prependOnceListener", "rawListeners", "removeAllListeners",
   "removeListener", "setMaxListeners",
   "constructor", "hasOwnProperty", "isPrototypeOf", "propertyIsEnumerable",
   "toLocaleString", "toString", "valueOf"]

/-- Models `isRegistered(namespace)` (registry.js lines 48-50): literally
`!!(namespace in this)`, so it sees registered namespaces, the internal own
properties, and everything on the prototype chain. -/
def isRegistered (st : RegState) (ns : String) : Bool :=
  st.entries.any (fun p => decide (p.1 = ns)) ||
    decide (ns ∈ ownInternalProps) || decide (ns ∈ prototypeProps)

/-- Models `isCompiled(namespace)` (registry.js lines 52-54):
`mongoose.modelNames().includes(namespace)`. -/
def isCompiled (st : RegState) (ns : String) : Bool :=
  decide (ns ∈ st.models)

/-- Models `_register(modelClass, schema, discriminators)` (registry.js lines
128-134): `this[schema.name] = {modelClass, schema, discriminators}` — an
upsert keyed by the schema's name. -/
def registerOp (st : RegState) (mc : Option ModelClassV) (s : ChimeraSchema)
    (d : List (String × ChimeraSchema)) : RegState :=
  { st with entries := upsert st.entries s.name ⟨mc, s, d⟩ }

/-! ### Association application (`associate` / `_buildJunction`) -/

/-- A populated `ChimeraModel` reference (`assoc.from` / `assoc.to` /
`assoc.through`), of which only the `namespace` matters here. -/
structure ChimeraModelRef where
  ns : String
deriving DecidableEq, Repr

/-- The `fromModel` / `toModel` sub-documents of a `ChimeraAssociation`. -/
structure AssociationEnd where
  foreignKey : Option String := none
  primaryKey : Option String := none
  relatedName : Option String := none
  reverseName : Option String := none
deriving DecidableEq, Repr

/-- A `ChimeraAssociation` document as consumed by
`ChimeraSchema#associate`; `atype` models the `type` discriminator
(`"HierarchicalAssociation"` / `"NonHierarchicalAssociation"`), and
`fromRef`/`toRef` model the populated `from`/`to` models. -/
structure ChimeraAssociation where
  atype : String
  many : Bool := false
  fromRef : ChimeraModelRef
  toRef : ChimeraModelRef
  fromModel : AssociationEnd := {}
  toModel : AssociationEnd := {}
  through : Option ChimeraModelRef := none
deriving DecidableEq, Repr

/-- Overwrite the schema stored under key `k` (in JavaScript the junction
schema object is shared with the registry entry, so mutating it mutates the
entry; the pure model writes the mutated schema back). -/
def setEntrySchema (l : List (String × Entry)) (k : String) (sc : ChimeraSchema) :
    List (String × Entry) :=
  l.map (fun p => if p.1 = k then (p.1, { p.2 with schema := sc }) else p)

/-- Models `ChimeraSchema#_buildJunction` (src/src/orm/schema.js lines 239-270):
finds or registers the junction schema (implicit name
`from.namespace + "_" + to.namespace`), wires a `belongsTo` toward each
side into it, and returns it. -/
def buildJunction (reg : RegState) (a : ChimeraAssociation) :
    Except JsError (RegState × String × ChimeraSchema) := do
  let (reg₁, key, j₀) ←
    match a.through with
    | none =>
      let implicitName := a.fromRef.ns ++ "_" ++ a.toRef.ns
      if isRegistered reg implicitName then
        match assocGet reg.entries implicitName with
        | some e => Except.ok (reg, implicitName, e.schema)
        | none => Except.error (.typeError ("cannot read schema of " ++ implicitName))
      else
        let sch := mkChimeraSchema implicitName
        Except.ok ({ reg with entries := upsert reg.entries implicitName ⟨some (.str implicitName), sch, []⟩ },
          implicitName, sch)
    | some thr =>
      match assocGet reg.entries thr.ns with
      | some e => Except.ok (reg, thr.ns, e.schema)
      | none => Except.error (.typeError ("cannot read schema of " ++ thr.ns))
  let j₁ ← belongsTo j₀ a.fromRef.ns
    ⟨a.fromModel.foreignKey, a.fromModel.primaryKey, a.fromModel.relatedName, none⟩
  let j₂ ← belongsTo j₁ a.toRef.ns
    ⟨a.toModel.foreignKey, a.toModel.primaryKey, a.toModel.relatedName, none⟩
  Except.ok ({ reg₁ with entries := setEntrySchema reg₁.entries key j₂ }, key, j₂)

/-- One iteration of the `associations.forEach` switch in
`ChimeraSchema#associate` (src/src/orm/schema.js lines 189-232): dominance
is `assoc.from.namespace === this.name`; hierarchical associations dispatch
to `hasMany`/`hasOne` (dominant) or `belongsTo` (subordinate);
non-hierarchical ones build the junction then declare `belongsToMany`;
any other `type` throws a `ChimeraSchemaError`. -/
def applyAssociation (reg : RegState) (s : ChimeraSchema) (a : ChimeraAssociation) :
    Except JsError (RegState × ChimeraSchema) :=
  if a.atype = "HierarchicalAssociation" then
    if a.fromRef.ns = s.name then
      let opts : AssocOptions :=
        { localField := a.fromModel.primaryKey,
          foreignField := some (orDefault a.toModel.foreignKey (camelCase s.name ++ "Id")),
          as := a.fromModel.reverseName }
      ((if a.many then hasMany s a.toRef.ns opts else hasOne s a.toRef.ns opts)).map
        (fun s' => (reg, s'))
    else
      (belongsTo s a.fromRef.ns
        { localField := a.toModel.foreignKey,
          foreignField := a.fromModel.primaryKey,
          as := a.toModel.relatedName }).map (fun s' => (reg, s'))
  else if a.atype = "NonHierarchicalAssociation" then
    match buildJunction reg a with
    | .error e => .error e
    | .ok (reg₁, _, j) =>
    if a.fromRef.ns = s.name then
      (belongsToMany s a.toRef.ns
        { localField := a.fromModel.primaryKey,
          foreignField := a.fromModel.foreignKey,
          as := a.fromModel.reverseName,
          through := some j.name }).map (fun s' => (reg₁, s'))
    else
      (belongsToMany s a.fromRef.ns
        { localField := a.toModel.primaryKey,
          foreignField := a.toModel.foreignKey,
          as := a.toModel.reverseName,
          through := some j.name }).map (fun s' => (reg₁, s'))
  else
    .error (.schemaDefinitionError ("Cannot apply ChimeraAssociation of type " ++ a.atype))

/-- Models `ChimeraSchema#associate(associations)`: applies each association in
order, threading the registry (for junction registration) and the mutating
schema. -/
def associate : RegState → ChimeraSchema → List ChimeraAssociation →
    Except JsError (RegState × ChimeraSchema)
  | reg, s, [] => .ok (reg, s)
  | reg, s, a :: rest =>
    match applyAssociation reg s a with
    | .error e => .error e
    | .ok (reg₁, s₁) => associate reg₁ s₁ rest

/-! ### Compilation (`_namespaceToScope` / `_compile`) -/

/-- Models `ns.startsWith("_")`: whether the first character is an underscore. -/
def startsWithUnderscore (k : String) : Bool :=
  match k.data with
  | [] => false
  | c :: _ => decide (c = '_')

/-- Models `Object.keys(this).filter(ns => !ns.startsWith("_"))`: the full scope
used by `_namespaceToScope()` with no argument — own enumerable properties
(internal fields first, then registered namespaces in insertion order) with
underscore-led names dropped. -/
def fullScope (st : RegState) : List String :=
  (ownInternalProps ++ st.entries.map (·.1)).filter (fun k => !(startsWithUnderscore k))

/-- Models `_namespaceToScope(namespace)` (registry.js lines 220-234): an explicit
scope must pass the `isRegistered` check (first failure throws a
`ReferenceError`); no scope yields the full scope. -/
def namespaceToScope (st : RegState) (arg : Option (List String)) :
    Except JsError (List String) :=
  match arg with
  | some scope =>
    match scope.find? (fun ns => !(isRegistered st ns)) with
    | some ns => .error (.referenceError (ns ++ " is not a registered namespace."))
    | none => .ok scope
  | none => .ok (fullScope st)

/-- The main loop of `_compile` (registry.js lines 166-190): for each scope
namespace, delete any mongoose model of that name, compile the entry's
schema under `schema.name` (mongoose throws `OverwriteModelError` on a name
collision), then delete-and-recreate each declared discriminator model. -/
def compileMainLoop : RegState → List String → Except JsError RegState
  | st, [] => .ok st
  | st, ns :: rest =>
    match assocGet st.entries ns with
    | none => .error (.typeError ("cannot read schema of " ++ ns))
    | some e =>
      let ms₁ := if ns ∈ st.models then st.models.erase ns else st.models
      if e.schema.name ∈ ms₁ then .error (.overwriteModelError e.schema.name)
      else
        let ms₂ := ms₁ ++ [e.schema.name]
        let ms₃ := e.discriminators.foldl
          (fun ms d => (if d.1 ∈ ms then ms.erase d.1 else ms) ++ [d.1]) ms₂
        compileMainLoop { st with models := ms₃ } rest

/-- The model name used by the uncompiled-registrants loop:
`uncompiled.modelClass || uncompiled.schema.name`; a class passed where
mongoose needs a string name is an error. -/
def uncompiledName (mc : Option ModelClassV) (fallback : String) :
    Except JsError String :=
  match mc with
  | some .cls => .error .invalidModelName
  | some (.str s) => .ok (if s = "" then fallback else s)
  | none => .ok fallback

/-- The trailing loop of `_compile` (registry.js lines 192-203): compile
every registered-but-never-compiled namespace under
`modelClass || schema.name`. -/
def uncompiledLoop : RegState → List String → Except JsError RegState
  | st, [] => .ok st
  | st, ns :: rest =>
    if ns ∈ st.models then uncompiledLoop st rest
    else
      match assocGet st.entries ns with
      | none => .error (.typeError ("cannot read schema of " ++ ns))
      | some e =>
        match uncompiledName e.modelClass e.schema.name with
        | .error er => .error er
        | .ok mname =>
          if mname ∈ st.models then .error (.overwriteModelError mname)
          else uncompiledLoop { st with models := st.models ++ [mname] } rest

/-- Models `_compile(namespace)` (registry.js lines 162-206): resolve the scope,
run the main compile loop over it, then sweep the full scope for
uncompiled registrants (callers never pass `opts`, so
`uncompiledRegistrants` is always on). -/
def compileOp (st : RegState) (arg : Option (List String)) :
    Except JsError RegState :=
  match namespaceToScope st arg with
  | .error e => .error e
  | .ok scope =>
    match compileMainLoop st scope with
    | .error e => .error e
    | .ok st₁ => uncompiledLoop st₁ (fullScope st₁)

/-- One observable state transition of the registry: a `_register` call, a
successful `_compile` call, an association pass mutating registered schemas
in place (which never changes a schema's name), or a `_modelCache`
rewrite by `_loadStaticSchemas`/`_loadDynamicSchemas`. -/
inductive Step : RegState → RegState → Prop where
  | register (st : RegState) (mc : Option ModelClassV) (s : ChimeraSchema)
      (d : List (String × ChimeraSchema)) : Step st (registerOp st mc s d)
  | compile (st : RegState) (arg : Option (List String)) (st' : RegState)
      (h : compileOp st arg = .ok st') : Step st st'
  | mutateSchemas (st : RegState) (f : ChimeraSchema → ChimeraSchema)
      (hf : ∀ sc, (f sc).name = sc.name) :
      Step st { st with entries := st.entries.map (fun p => (p.1, { p.2 with schema := f p.2.schema })) }
  | setCache (st : RegState) (c : List (String × Option Nat)) :
      Step st { st with modelCache := c }

/-- Registry states reachable from `new ModelRegistry()`. -/
inductive Reachable : RegState → Prop where
  | init : Reachable initState
  | step {st st' : RegState} : Reachable st → Step st st' → Reachable st'

/-- A registration that declares no discriminators and whose string-valued
`modelClass` (if any) is empty or coincides with its schema's name. -/
def entryOk (e : Entry) : Prop :=
  e.discriminators = [] ∧
    ∀ s, e.modelClass = some (.str s) → s = "" ∨ s = e.schema.name

/-- The step relation restricted to discriminator-free, alias-free registrations. -/
inductive StepD : RegState → RegState → Prop where
  | register (st : RegState) (mc : Option ModelClassV) (s : ChimeraSchema)
      (d : List (String × ChimeraSchema)) (h : entryOk ⟨mc, s, d⟩) :
      StepD st (registerOp st mc s d)
  | compile (st : RegState) (arg : Option (List String)) (st' : RegState)
      (h : compileOp st arg = .ok st') : StepD st st'
  | mutateSchemas (st : RegState) (f : ChimeraSchema → ChimeraSchema)
      (hf : ∀ sc, (f sc).name = sc.name) :
      StepD st { st with entries := st.entries.map (fun p => (p.1, { p.2 with schema := f p.2.schema })) }
  | setCache (st : RegState) (c : List (String × Option Nat)) :
      StepD st { st with modelCache := c }

/-- Registry states reachable without discriminators or aliased model
classes. -/
inductive ReachableD : RegState → Prop where
  | init : ReachableD initState
  | step {st st' : RegState} : ReachableD st → StepD st st' → ReachableD st'

/-! ### The dynamic-compile pipeline (`compile` / `_loadDynamicSchemas` /
`_idsToNamespace`) -/

/-- A dynamic model document in the store (a `ChimeraModel`), reduced to
its `_id` and `namespace`. -/
structure DynModel where
  id : Nat
  ns : String
deriving DecidableEq, Repr

/-- The `ids` argument of the public `compile(ids)`: omitted (`undefined`),
a single id, or an array of ids. -/
inductive JsIdsArg where
  | undef
  | single (i : Nat)
  | arr (l : List Nat)
deriving DecidableEq, Repr

/-- The `if (!Array.isArray(ids)) ids = [ids]` wrap at the top of
`compile`: `undefined` becomes the one-element array `[undefined]`. -/
def wrapIds : JsIdsArg → List (Option Nat)
  | .undef => [none]
  | .single i => [some i]
  | .arr l => l.map some

/-- Models `_loadDynamicSchemas(ids)` (registry.js lines 98-121), reduced to the
documents it loads: `where = ids ? {_id: {$in: ids}} : {}`, and
`loadHydrated` with the empty filter returns every stored document. -/
def loadDynamicSchemas (store : List DynModel) (ids : Option (List (Option Nat))) :
    List DynModel :=
  match ids with
  | none => store
  | some l => store.filter (fun m => decide (some m.id ∈ l))

/-- Models `_idsToNamespace(ids)` (registry.js lines 208-218): with a truthy `ids`
array, the namespaces of `_modelCache` entries whose `model.id` is included
in `ids` (`includes` matches `undefined` against the static placeholders,
whose `id` is `undefined`); with no `ids`, every cached namespace. -/
def idsToNamespace (cache : List (String × Option Nat)) (ids : Option (List (Option Nat))) :
    List String :=
  match ids with
  | none => cache.map (·.1)
  | some l => (cache.filter (fun p => decide (p.2 ∈ l))).map (·.1)

/-- The observable load-and-scope part of the public `compile(ids)`
(registry.js lines 27-38): wrap the argument, load the matching dynamic
documents, merge them into `_modelCache`, and resolve the namespaces that
will be associated and compiled.  Returns the loaded documents and that
namespace scope. -/
def compileDynamicScope (store : List DynModel) (cache : List (String × Option Nat))
    (ids : JsIdsArg) : List DynModel × List String :=
  let wrapped := wrapIds ids
  let loaded := loadDynamicSchemas store (some wrapped)
  let cache' := loaded.foldl (fun c m => upsert c m.ns (some m.id)) cache
  (loaded, idsToNamespace cache' (some wrapped))

/-! ### Migration Dependency Engine

Modelled from the spec: the `migrate` implementation (`chimera/orm/orm`) is
not in the repository snapshot; only its tests are
(`src/test/orm/orm.tests.js`).  The definitions below follow spec §4.3:
candidate selection by tracking record, a dependency graph over the whole
loaded template set, and a deterministic Kahn topological order seeded and
tie-broken by original load order.  For backward mode the spec's §4.3
wording ("compute the same topological order ... then reverse") is
inconsistent with the spec's own §8 expected output and with the test at
src/test/orm/orm.tests.js lines 198-209; backward mode is therefore
modelled as the same Kahn procedure on the transposed graph (identical
load-order tie-breaking), which reproduces both §8 and the test. -/

/-- A migration template: namespace, human name, and the `dependsOn`
namespaces (normalized to a list; spec §3 calls it a set). -/
structure MigrationTemplate where
  ns : String
  name : String
  dependsOn : List String
deriving DecidableEq, Repr

/-- Graph-ordering failures, spec §4.3 item 5. -/
inductive MigrationError where
  | cycleDetectedError
  | unknownDependencyError (dep : String)
deriving DecidableEq, Repr

/-- Process one dequeued node: walk its dependents in load order,
decrement each dependent's indegree, and collect (in that same order) the
dependents that reach indegree zero. -/
def processNode (prereqs : MigrationTemplate → List String)
    (ts : List MigrationTemplate) (u : MigrationTemplate)
    (indegs : List (String × Nat)) :
    List (String × Nat) × List MigrationTemplate :=
  (ts.filter (fun d => decide (u.ns ∈ prereqs d))).foldl
    (fun acc d =>
      let indegs' := acc.1.map (fun p => if p.1 = d.ns then (p.1, p.2 - 1) else p)
      if (assocGet indegs' d.ns).getD 0 = 0 then (indegs', acc.2 ++ [d])
      else (indegs', acc.2))
    (indegs, [])

/-- The Kahn queue loop: dequeue FIFO, emit, enqueue newly-ready dependents
in load order.  Fuel bounds the number of dequeues by the node count. -/
def kahnLoop (prereqs : MigrationTemplate → List String)
    (ts : List MigrationTemplate) :
    Nat → List (String × Nat) → List MigrationTemplate →
      List MigrationTemplate → List MigrationTemplate
  | 0, _, _, emitted => emitted
  | _ + 1, _, [], emitted => emitted
  | fuel + 1, indegs, u :: rest, emitted =>
    let pr := processNode prereqs ts u indegs
    kahnLoop prereqs ts fuel pr.1 (rest ++ pr.2) (emitted ++ [u])

/-- Kahn's algorithm over the loaded template set, parameterized by each
node's prerequisite set: seed the ready queue with the zero-indegree nodes
in load order, then run the queue loop. -/
def kahnOrder (prereqs : MigrationTemplate → List String)
    (ts : List MigrationTemplate) : List MigrationTemplate :=
  kahnLoop prereqs ts ts.length
    (ts.map (fun t => (t.ns, (prereqs t).length)))
    (ts.filter (fun t => (prereqs t).isEmpty))
    []

/-- Forward prerequisites: the template's own `dependsOn` set. -/
def forwardPrereqs (t : MigrationTemplate) : List String :=
  t.dependsOn.dedup

/-- Transposed-graph prerequisites: the namespaces of the templates that
depend on `t`, in load order. -/
def backwardPrereqs (ts : List MigrationTemplate) (t : MigrationTemplate) :
    List String :=
  (ts.filter (fun d => decide (t.ns ∈ d.dependsOn.dedup))).map (·.ns)

/-- The first `dependsOn` entry naming no loaded namespace, if any. -/
def findUnknownDep (ts : List MigrationTemplate) : Option String :=
  ts.findSome? (fun t => t.dependsOn.find? (fun d => !(decide (d ∈ ts.map (·.ns)))))

/-- Order the full loaded set, failing with `UnknownDependencyError` or
`CycleDetectedError` (a node whose indegree never reaches zero is never
emitted) before any script would run. -/
def topoOrderWith (prereqs : MigrationTemplate → List String)
    (ts : List MigrationTemplate) :
    Except MigrationError (List MigrationTemplate) :=
  match findUnknownDep ts with
  | some d => .error (.unknownDependencyError d)
  | none =>
    let order := kahnOrder prereqs ts
    if ts.all (fun t => decide (t.ns ∈ order.map (·.ns))) then .ok order
    else .error .cycleDetectedError

/-- Models `migrate({backwards})`, spec §4.3, reduced to its ordering and
tracking behaviour.  `tracking` is the set of namespaces holding a tracking
record.  Forward: candidates are the untracked templates, executed in their
positions within the full topological order, each adding a tracking record.
Backward: candidates are the tracked templates, executed in the
transposed-graph Kahn order, each deleting its tracking record.  Returns
the executed migrations in execution order together with the new tracking
set. -/
def migrate (backwards : Bool) (ts : List MigrationTemplate)
    (tracking : List String) :
    Except MigrationError (List MigrationTemplate × List String) :=
  if backwards then
    match topoOrderWith (backwardPrereqs ts) ts with
    | .error e => .error e
    | .ok order =>
      let executed := order.filter (fun t => decide (t.ns ∈ tracking))
      .ok (executed, tracking.filter (fun n => !(decide (n ∈ executed.map (·.ns)))))
  else
    match topoOrderWith forwardPrereqs ts with
    | .error e => .error e
    | .ok order =>
      let executed := order.filter (fun t => !(decide (t.ns ∈ tracking)))
      .ok (executed, tracking ++ executed.map (·.ns))

/-- The migration template set of the ordered-execution tests
(src/test/orm/orm.tests.js lines 127-137), loaded in the order
[alpha, beta, delta, gamma, iota, theta]; namespaces are taken equal to the
human names. -/
def orderedTemplates : List MigrationTemplate :=
  [⟨"alpha", "alpha", []⟩,
   ⟨"beta", "beta", ["alpha"]⟩,
   ⟨"delta", "delta", ["beta"]⟩,
   ⟨"gamma", "gamma", ["alpha"]⟩,
   ⟨"iota", "iota", ["gamma", "delta"]⟩,
   ⟨"theta", "theta", []⟩]

/-- All six namespaces tracked (the fully-applied state). -/
def orderedTracking : List String :=
  ["alpha", "beta", "delta", "gamma", "iota", "theta"]

/-- Claim C1: for the template set alpha (no dependencies), beta depending
on alpha, delta on beta, gamma on alpha, iota on gamma and delta, and theta
(no dependencies), loaded in the order [alpha, beta, delta, gamma, iota,
theta] with no tracking records, forward `migrate()` executes and returns
the migrations in exactly the order
[alpha, theta, beta, gamma, delta, iota]. -/
theorem migrate_forward_dependency_order :
    (migrate false orderedTemplates []).map (fun r => r.1.map (·.name)) =
      .ok ["alpha", "theta", "beta", "gamma", "delta", "iota"] := rfl

/-- Claim C2, counterexample: on the fully-applied set, backward
`migrate()` returns [iota, theta, delta, gamma, beta, alpha] (as the test
at src/test/orm/orm.tests.js lines 198-209 demands), but the exact reverse
of the forward execution order is [iota, delta, gamma, beta, theta, alpha],
a different sequence — so the claim's "i.e. the exact reverse of the
forward execution order" is false. -/
theorem migrate_backward_not_reverse_of_forward :
    (migrate true orderedTemplates orderedTracking).map (fun r => r.1.map (·.name)) =
        .ok ["iota", "theta", "delta", "gamma", "beta", "alpha"] ∧
      (migrate false orderedTemplates []).map (fun r => (r.1.map (·.name)).reverse) =
        .ok ["iota", "delta", "gamma", "beta", "theta", "alpha"] ∧
      (["iota", "theta", "delta", "gamma", "beta", "alpha"] : List String) ≠
        ["iota", "delta", "gamma", "beta", "theta", "alpha"] :=
  ⟨rfl, rfl, by decide⟩

/-- Claim C2, amended: on the same fully-applied set, backward `migrate()`
executes and returns the migrations in exactly the order
[iota, theta, delta, gamma, beta, alpha] — a reverse-topological order with
the same load-order tie-breaking (not the element-wise reverse of the
forward execution order) — and deletes every tracking record. -/
theorem migrate_backward_dependency_order :
    (migrate true orderedTemplates orderedTracking).map
        (fun r => (r.1.map (·.name), r.2)) =
      .ok (["iota", "theta", "delta", "gamma", "beta", "alpha"], []) := rfl

/-- Claim C3: a second forward `migrate()` right after a successful forward
run, with the same template set loaded, executes nothing: every template's
namespace is tracked after the first call, so the second call returns the
empty list (and leaves the tracking set unchanged). -/
theorem migrate_forward_idempotent (ts : List MigrationTemplate)
    (tracking : List String) (r : List MigrationTemplate × List String)
    (h : migrate false ts tracking = .ok r) :
    migrate false ts r.2 = .ok ([], r.2) := by
  unfold migrate at h ⊢
  simp only [Bool.false_eq_true, if_false] at h ⊢
  cases hto : topoOrderWith forwardPrereqs ts with
  | error e => rw [hto] at h; exact absurd h (by simp)
  | ok order =>
    rw [hto] at h
    have h' := Except.ok.inj h
    have hr2 : r.2 = tracking ++
        (order.filter (fun t => !(decide (t.ns ∈ tracking)))).map (·.ns) := by
      rw [← h']
    have hfil : order.filter (fun t => !(decide (t.ns ∈ r.2))) = [] := by
      apply List.filter_eq_nil_iff.mpr
      intro t ht
      simp only [Bool.not_eq_true', decide_eq_false_iff_not, Decidable.not_not, hr2,
        List.mem_append, List.mem_map]
      by_cases htr : t.ns ∈ tracking
      · exact Or.inl htr
      · exact Or.inr ⟨t, List.mem_filter.mpr ⟨ht, by simp [htr]⟩, rfl⟩
    show Except.ok (order.filter (fun t => !(decide (t.ns ∈ r.2))),
        r.2 ++ (order.filter (fun t => !(decide (t.ns ∈ r.2)))).map (·.ns)) =
      Except.ok ([], r.2)
    rw [hfil]
    simp

/-- The result of the first forward run on the ordered template set. -/
def firstForwardRun : List MigrationTemplate × List String :=
  ((migrate false orderedTemplates []).toOption).getD ([], [])

/-- Witness for C3: the idempotence theorem applied to the concrete ordered
template set with an empty initial tracking set. -/
theorem migrate_forward_idempotent_witness :
    migrate false orderedTemplates firstForwardRun.2 = .ok ([], firstForwardRun.2) :=
  migrate_forward_idempotent orderedTemplates [] firstForwardRun rfl

/-! ### Claim C4 -/

/-- A store holding one dynamic model definition. -/
def dynStoreEx : List DynModel := [⟨1, "chimera.dynA"⟩]

/-- A `_modelCache` as left by static loading: one empty placeholder object
(whose `id` is `undefined`). -/
def staticCacheEx : List (String × Option Nat) := [("chimera.staticM", none)]

/-- Claim C4 evaluated at the failing input: calling `compile` with the
`ids` argument omitted wraps `undefined` into `[undefined]`, so
`_loadDynamicSchemas` filters on `_id ∈ [undefined]` and loads no dynamic
model at all, and `_idsToNamespace` selects only the static cache
placeholders — while `compile` with the explicit list of every dynamic id
loads and scopes the dynamic model, and the "empty filter means all"
branch of `_loadDynamicSchemas` (which does return the whole store) is
unreachable from `compile`. -/
theorem compile_omitted_ids_divergence :
    compileDynamicScope dynStoreEx staticCacheEx .undef = ([], ["chimera.staticM"]) ∧
      compileDynamicScope dynStoreEx staticCacheEx (.arr [1]) =
        ([⟨1, "chimera.dynA"⟩], ["chimera.dynA"]) ∧
      loadDynamicSchemas dynStoreEx none = [⟨1, "chimera.dynA"⟩] :=
  ⟨rfl, rfl, rfl⟩

/-! ### Helper lemmas for the schema operations -/

theorem find?_upsertVirtual (l : List Virtual) (v : Virtual) :
    (upsertVirtual l v).find? (fun w => decide (w.name = v.name)) = some v := by
  induction l with
  | nil => simp [upsertVirtual, List.find?]
  | cons w ws ih =>
    by_cases hw : w.name = v.name
    · simp [upsertVirtual, hw, List.find?]
    · simp [upsertVirtual, hw, List.find?, ih]

theorem getVirtual_setVirtual (s : ChimeraSchema) (v : Virtual) :
    getVirtual (setVirtual s v) v.name = some v := by
  simpa [getVirtual, setVirtual] using find?_upsertVirtual s.virtuals v

theorem append_Id_ne_empty (x : String) : x ++ "Id" ≠ "" := by
  intro h
  have h2 := congrArg String.length h
  rw [String.length_append] at h2
  have hId : "Id".length = 2 := rfl
  have h0 : "".length = 0 := rfl
  omega

theorem orDefault_ne_empty (o : Option String) (d : String) (hd : d ≠ "") :
    orDefault o d ≠ "" := by
  cases o with
  | none => simpa [orDefault]
  | some s => by_cases hs : s = "" <;> simp [orDefault, hs, hd]

/-! ### Claims C5, C6, C7 -/

/-- Claim C5: for an association handled by `associate`: a Hierarchical
association whose from-model namespace equals the schema's own name gives
the schema a `hasMany` (many case) or `hasOne` (otherwise) accessor toward
the to-model; one whose from-model namespace differs gives the schema a
`belongsTo` accessor toward the from-model; and an association whose type
is neither known tag makes `associate` fail with a `ChimeraSchemaError`
(the spec's `SchemaDefinitionError`). -/
theorem associate_dispatch (reg : RegState) (s : ChimeraSchema)
    (a : ChimeraAssociation) :
    (a.atype = "HierarchicalAssociation" → a.fromRef.ns = s.name →
      a.many = true → a.toRef.ns ≠ "" →
      ∃ s' v, associate reg s [a] = .ok (reg, s') ∧
        getVirtual s' (orDefault a.fromModel.reverseName
          (camelCase a.toRef.ns ++ "Set")) = some v ∧
        v.ref = a.toRef.ns ∧ v.justOne = false) ∧
    (a.atype = "HierarchicalAssociation" → a.fromRef.ns = s.name →
      a.many = false → a.toRef.ns ≠ "" →
      ∃ s' v, associate reg s [a] = .ok (reg, s') ∧
        getVirtual s' (orDefault a.fromModel.reverseName
          (camelCase a.toRef.ns)) = some v ∧
        v.ref = a.toRef.ns ∧ v.justOne = true) ∧
    (a.atype = "HierarchicalAssociation" → a.fromRef.ns ≠ s.name →
      a.fromRef.ns ≠ "" →
      ∃ s' v, associate reg s [a] = .ok (reg, s') ∧
        getVirtual s' (orDefault a.toModel.relatedName
          (camelCase a.fromRef.ns)) = some v ∧
        v.ref = a.fromRef.ns ∧ v.justOne = true) ∧
    (a.atype ≠ "HierarchicalAssociation" → a.atype ≠ "NonHierarchicalAssociation" →
      ∃ msg, associate reg s [a] = .error (.schemaDefinitionError msg)) := by
  have hff : orDefault a.toModel.foreignKey (camelCase s.name ++ "Id") ≠ "" :=
    orDefault_ne_empty _ _ (append_Id_ne_empty _)
  refine ⟨?_, ?_, ?_, ?_⟩
  · intro hty hdom hmany hto
    refine ⟨setVirtual s
        ⟨orDefault a.fromModel.reverseName (camelCase a.toRef.ns ++ "Set"), a.toRef.ns,
          orDefault a.fromModel.primaryKey "_id",
          orDefault a.toModel.foreignKey (camelCase s.name ++ "Id"), false⟩,
      ⟨orDefault a.fromModel.reverseName (camelCase a.toRef.ns ++ "Set"), a.toRef.ns,
        orDefault a.fromModel.primaryKey "_id",
        orDefault a.toModel.foreignKey (camelCase s.name ++ "Id"), false⟩,
      ?_, getVirtual_setVirtual s _, rfl, rfl⟩
    simp [associate, applyAssociation, Except.map, hasMany, optFalsy, hty, hdom, hmany, hto, hff]
  · intro hty hdom hmany hto
    refine ⟨setVirtual s
        ⟨orDefault a.fromModel.reverseName (camelCase a.toRef.ns), a.toRef.ns,
          orDefault a.fromModel.primaryKey "_id",
          orDefault a.toModel.foreignKey (camelCase s.name ++ "Id"), true⟩,
      ⟨orDefault a.fromModel.reverseName (camelCase a.toRef.ns), a.toRef.ns,
        orDefault a.fromModel.primaryKey "_id",
        orDefault a.toModel.foreignKey (camelCase s.name ++ "Id"), true⟩,
      ?_, getVirtual_setVirtual s _, rfl, rfl⟩
    simp [associate, applyAssociation, Except.map, hasOne, optFalsy, hty, hdom, hmany, hto, hff]
  · intro hty hdom hfrom
    by_cases hp : orDefault a.toModel.foreignKey
        (orDefault a.toModel.relatedName (camelCase a.fromRef.ns) ++ "Id") ∈ s.paths
    · refine ⟨setVirtual
          { s with warnings := s.warnings ++
              ["Unable to register new association path as it already exists: " ++
                s.name ++ "." ++
                orDefault a.toModel.foreignKey
                  (orDefault a.toModel.relatedName (camelCase a.fromRef.ns) ++ "Id")] }
          ⟨orDefault a.toModel.relatedName (camelCase a.fromRef.ns), a.fromRef.ns,
            orDefault a.toModel.foreignKey
              (orDefault a.toModel.relatedName (camelCase a.fromRef.ns) ++ "Id"),
            orDefault a.fromModel.primaryKey "_id", true⟩,
        ⟨orDefault a.toModel.relatedName (camelCase a.fromRef.ns), a.fromRef.ns,
          orDefault a.toModel.foreignKey
            (orDefault a.toModel.relatedName (camelCase a.fromRef.ns) ++ "Id"),
          orDefault a.fromModel.primaryKey "_id", true⟩,
        ?_, getVirtual_setVirtual _ _, rfl, rfl⟩
      simp [associate, applyAssociation, Except.map, belongsTo, hty, hdom, hfrom, hp]
    · refine ⟨setVirtual
          { s with paths := s.paths ++
              [orDefault a.toModel.foreignKey
                (orDefault a.toModel.relatedName (camelCase a.fromRef.ns) ++ "Id")] }
          ⟨orDefault a.toModel.relatedName (camelCase a.fromRef.ns), a.fromRef.ns,
            orDefault a.toModel.foreignKey
              (orDefault a.toModel.relatedName (camelCase a.fromRef.ns) ++ "Id"),
            orDefault a.fromModel.primaryKey "_id", true⟩,
        ⟨orDefault a.toModel.relatedName (camelCase a.fromRef.ns), a.fromRef.ns,
          orDefault a.toModel.foreignKey
            (orDefault a.toModel.relatedName (camelCase a.fromRef.ns) ++ "Id"),
          orDefault a.fromModel.primaryKey "_id", true⟩,
        ?_, getVirtual_setVirtual _ _, rfl, rfl⟩
      simp [associate, applyAssociation, Except.map, belongsTo, hty, hdom, hfrom, hp]
  · intro h1 h2
    exact ⟨"Cannot apply ChimeraAssociation of type " ++ a.atype,
      by simp [associate, applyAssociation, h1, h2]⟩

/-- Concrete example schemas and associations for the dispatch witness. -/
def schemaAEx : ChimeraSchema := mkChimeraSchema "chimera.modelA"

def assocHMEx : ChimeraAssociation :=
  ⟨"HierarchicalAssociation", true, ⟨"chimera.modelA"⟩, ⟨"chimera.modelB"⟩, {}, {}, none⟩

def assocHOEx : ChimeraAssociation :=
  ⟨"HierarchicalAssociation", false, ⟨"chimera.modelA"⟩, ⟨"chimera.modelB"⟩, {}, {}, none⟩

def assocSubEx : ChimeraAssociation :=
  ⟨"HierarchicalAssociation", false, ⟨"chimera.modelC"⟩, ⟨"chimera.modelA"⟩, {}, {}, none⟩

def assocBadEx : ChimeraAssociation :=
  ⟨"BogusAssociation", false, ⟨"chimera.modelA"⟩, ⟨"chimera.modelB"⟩, {}, {}, none⟩

/-- Witness for C5: all four dispatch branches instantiated at concrete
associations. -/
theorem associate_dispatch_witness :
    (∃ s' v, associate initState schemaAEx [assocHMEx] = .ok (initState, s') ∧
        getVirtual s' (orDefault assocHMEx.fromModel.reverseName
          (camelCase assocHMEx.toRef.ns ++ "Set")) = some v ∧
        v.ref = assocHMEx.toRef.ns ∧ v.justOne = false) ∧
      (∃ s' v, associate initState schemaAEx [assocHOEx] = .ok (initState, s') ∧
        getVirtual s' (orDefault assocHOEx.fromModel.reverseName
          (camelCase assocHOEx.toRef.ns)) = some v ∧
        v.ref = assocHOEx.toRef.ns ∧ v.justOne = true) ∧
      (∃ s' v, associate initState schemaAEx [assocSubEx] = .ok (initState, s') ∧
        getVirtual s' (orDefault assocSubEx.toModel.relatedName
          (camelCase assocSubEx.fromRef.ns)) = some v ∧
        v.ref = assocSubEx.fromRef.ns ∧ v.justOne = true) ∧
      (∃ msg, associate initState schemaAEx [assocBadEx] =
        .error (.schemaDefinitionError msg)) :=
  ⟨(associate_dispatch initState schemaAEx assocHMEx).1 rfl rfl rfl (by decide),
   (associate_dispatch initState schemaAEx assocHOEx).2.1 rfl rfl rfl (by decide),
   (associate_dispatch initState schemaAEx assocSubEx).2.2.1 rfl (by decide) (by decide),
   (associate_dispatch initState schemaAEx assocBadEx).2.2.2 (by decide) (by decide)⟩

/-- Claim C6: `belongsTo` with a non-empty target name names the local
foreign-key field by the `localField` option, defaulting to the `as` option
(or the camel-cased target name) suffixed with "Id"; when a path of that
name already exists the field is not added and a warning is logged, and in
every case the singular virtual relation accessor is declared. -/
theorem belongsTo_field_and_accessor (s : ChimeraSchema) (modelName : String)
    (options : AssocOptions) (h : modelName ≠ "") :
    ∃ s', belongsTo s modelName options = .ok s' ∧
      (orDefault options.localField (orDefault options.as (camelCase modelName) ++ "Id") ∉ s.paths →
        s'.paths = s.paths ++
          [orDefault options.localField (orDefault options.as (camelCase modelName) ++ "Id")] ∧
        s'.warnings = s.warnings) ∧
      (orDefault options.localField (orDefault options.as (camelCase modelName) ++ "Id") ∈ s.paths →
        s'.paths = s.paths ∧
        s'.warnings = s.warnings ++
          ["Unable to register new association path as it already exists: " ++
            s.name ++ "." ++
            orDefault options.localField (orDefault options.as (camelCase modelName) ++ "Id")]) ∧
      ∃ v, getVirtual s' (orDefault options.as (camelCase modelName)) = some v ∧
        v.ref = modelName ∧
        v.localField =
          orDefault options.localField (orDefault options.as (camelCase modelName) ++ "Id") ∧
        v.justOne = true := by
  by_cases hp : orDefault options.localField
      (orDefault options.as (camelCase modelName) ++ "Id") ∈ s.paths
  · refine ⟨setVirtual
        { s with warnings := s.warnings ++
            ["Unable to register new association path as it already exists: " ++
              s.name ++ "." ++
              orDefault options.localField (orDefault options.as (camelCase modelName) ++ "Id")] }
        ⟨orDefault options.as (camelCase modelName), modelName,
          orDefault options.localField (orDefault options.as (camelCase modelName) ++ "Id"),
          orDefault options.foreignField "_id", true⟩,
      ?_, fun hn => absurd hp hn, fun _ => ⟨rfl, rfl⟩,
      _, getVirtual_setVirtual _ _, rfl, rfl, rfl⟩
    simp [belongsTo, h, hp]
  · refine ⟨setVirtual
        { s with paths := s.paths ++
            [orDefault options.localField (orDefault options.as (camelCase modelName) ++ "Id")] }
        ⟨orDefault options.as (camelCase modelName), modelName,
          orDefault options.localField (orDefault options.as (camelCase modelName) ++ "Id"),
          orDefault options.foreignField "_id", true⟩,
      ?_, fun _ => ⟨rfl, rfl⟩, fun hn => absurd hn hp,
      _, getVirtual_setVirtual _ _, rfl, rfl, rfl⟩
    simp [belongsTo, h, hp]

/-- A schema already owning the path that the default field name of a
`belongsTo` toward "chimera.modelB" would use. -/
def schemaWithPathEx : ChimeraSchema :=
  ⟨"chimera.modelA", ["_id", "chimera.modelBId"], [], []⟩

/-- Witness for C6: the theorem applied both to a schema without the
foreign-key path (field added) and to one already owning it
(warn and skip). -/
theorem belongsTo_field_and_accessor_witness :
    (∃ s', belongsTo schemaAEx "chimera.modelB" {} = .ok s' ∧
      (orDefault (none : Option String) (orDefault none (camelCase "chimera.modelB") ++ "Id") ∉ schemaAEx.paths →
        s'.paths = schemaAEx.paths ++
          [orDefault (none : Option String) (orDefault none (camelCase "chimera.modelB") ++ "Id")] ∧
        s'.warnings = schemaAEx.warnings) ∧
      (orDefault (none : Option String) (orDefault none (camelCase "chimera.modelB") ++ "Id") ∈ schemaAEx.paths →
        s'.paths = schemaAEx.paths ∧
        s'.warnings = schemaAEx.warnings ++
          ["Unable to register new association path as it already exists: " ++
            schemaAEx.name ++ "." ++
            orDefault (none : Option String) (orDefault none (camelCase "chimera.modelB") ++ "Id")]) ∧
      ∃ v, getVirtual s' (orDefault none (camelCase "chimera.modelB")) = some v ∧
        v.ref = "chimera.modelB" ∧
        v.localField =
          orDefault (none : Option String) (orDefault none (camelCase "chimera.modelB") ++ "Id") ∧
        v.justOne = true) ∧
    (∃ s', belongsTo schemaWithPathEx "chimera.modelB" {} = .ok s' ∧
      (orDefault (none : Option String) (orDefault none (camelCase "chimera.modelB") ++ "Id") ∉ schemaWithPathEx.paths →
        s'.paths = schemaWithPathEx.paths ++
          [orDefault (none : Option String) (orDefault none (camelCase "chimera.modelB") ++ "Id")] ∧
        s'.warnings = schemaWithPathEx.warnings) ∧
      (orDefault (none : Option String) (orDefault none (camelCase "chimera.modelB") ++ "Id") ∈ schemaWithPathEx.paths →
        s'.paths = schemaWithPathEx.paths ∧
        s'.warnings = schemaWithPathEx.warnings ++
          ["Unable to register new association path as it already exists: " ++
            schemaWithPathEx.name ++ "." ++
            orDefault (none : Option String) (orDefault none (camelCase "chimera.modelB") ++ "Id")]) ∧
      ∃ v, getVirtual s' (orDefault none (camelCase "chimera.modelB")) = some v ∧
        v.ref = "chimera.modelB" ∧
        v.localField =
          orDefault (none : Option String) (orDefault none (camelCase "chimera.modelB") ++ "Id") ∧
        v.justOne = true) :=
  ⟨belongsTo_field_and_accessor schemaAEx "chimera.modelB" {} (by decide),
   belongsTo_field_and_accessor schemaWithPathEx "chimera.modelB" {} (by decide)⟩

/-- Claim C7: `hasMany` and `hasOne` called with a non-empty model name but
without a `foreignField` option always fail with a `ChimeraSchemaError`
(the spec's `SchemaDefinitionError`); the error is returned before any
virtual accessor is declared, so no mutated schema is produced. -/
theorem hasMany_hasOne_require_foreignField (s : ChimeraSchema)
    (modelName : String) (options : AssocOptions) (h : modelName ≠ "")
    (hff : options.foreignField = none) :
    hasMany s modelName options =
        .error (.schemaDefinitionError "Missing required option foreignField.") ∧
      hasOne s modelName options =
        .error (.schemaDefinitionError "Missing required option foreignField.") := by
  constructor <;> simp [hasMany, hasOne, optFalsy, h, hff]

/-- Witness for C7: the requirement theorem at a concrete schema, model
name, and empty options object. -/
theorem hasMany_hasOne_require_foreignField_witness :
    hasMany schemaAEx "chimera.modelB" {} =
        .error (.schemaDefinitionError "Missing required option foreignField.") ∧
      hasOne schemaAEx "chimera.modelB" {} =
        .error (.schemaDefinitionError "Missing required option foreignField.") :=
  hasMany_hasOne_require_foreignField schemaAEx "chimera.modelB" {} (by decide) rfl

/-! ### Association-list lemmas for the registry -/

theorem upsert_upsert_same {α : Type} (l : List (String × α)) (k : String) (v w : α) :
    upsert (upsert l k v) k w = upsert l k w := by
  induction l with
  | nil => simp [upsert]
  | cons p ps ih =>
    by_cases hk : p.1 = k
    · simp [upsert, hk]
    · simp [upsert, hk, ih]

theorem assocGet_upsert {α : Type} (l : List (String × α)) (k : String) (v : α) :
    assocGet (upsert l k v) k = some v := by
  induction l with
  | nil => simp [upsert, assocGet, List.find?]
  | cons p ps ih =>
    by_cases hk : p.1 = k
    · simp [upsert, assocGet, List.find?, hk]
    · simp only [upsert, hk, if_false, assocGet, List.find?] at ih ⊢
      simp [hk, ih]

theorem any_key_upsert {α : Type} (l : List (String × α)) (k : String) (v : α) :
    (upsert l k v).any (fun p => decide (p.1 = k)) = true := by
  induction l with
  | nil => simp [upsert]
  | cons p ps ih => by_cases hk : p.1 = k <;> simp [upsert, hk, ih]

theorem countKey_eq_zero {α : Type} (l : List (String × α)) (k : String)
    (h : k ∉ l.map Prod.fst) :
    (l.filter (fun p => decide (p.1 = k))).length = 0 := by
  induction l with
  | nil => simp
  | cons p ps ih =>
    simp only [List.map_cons, List.mem_cons, not_or] at h
    have hk : ¬(p.1 = k) := fun hpk => h.1 hpk.symm
    simp [List.filter, hk, ih h.2]

theorem countKey_upsert_nodup {α : Type} (l : List (String × α)) (k : String) (v : α)
    (h : (l.map Prod.fst).Nodup) :
    ((upsert l k v).filter (fun p => decide (p.1 = k))).length = 1 := by
  induction l with
  | nil => simp [upsert, List.filter]
  | cons p ps ih =>
    simp only [List.map_cons, List.nodup_cons] at h
    by_cases hk : p.1 = k
    · subst hk
      have h0 := countKey_eq_zero ps p.1 h.1
      simp [upsert, List.filter, h0]
    · simp [upsert, hk, List.filter, ih h.2]

theorem mem_upsert {α : Type} {l : List (String × α)} {k : String} {v : α}
    {p : String × α} (h : p ∈ upsert l k v) : p = (k, v) ∨ p ∈ l := by
  induction l with
  | nil => simpa [upsert] using h
  | cons q qs ih =>
    by_cases hk : q.1 = k
    · simp only [upsert, hk, if_true, List.mem_cons] at h
      rcases h with h | h
      · exact Or.inl h
      · exact Or.inr (List.mem_cons_of_mem _ h)
    · simp only [upsert, hk, if_false, List.mem_cons] at h
      rcases h with h | h
      · exact Or.inr (by simp [h])
      · rcases ih h with h' | h'
        · exact Or.inl h'
        · exact Or.inr (List.mem_cons_of_mem _ h')

theorem mem_keys_upsert_of_mem {α : Type} {l : List (String × α)} {k n : String}
    {v : α} (h : n ∈ l.map Prod.fst) : n ∈ (upsert l k v).map Prod.fst := by
  induction l with
  | nil => simp at h
  | cons q qs ih =>
    by_cases hk : q.1 = k
    · simp only [List.map_cons, List.mem_cons] at h
      rcases h with h | h
      · subst h
        simp [upsert, hk]
      · simp [upsert, hk, h]
    · simp only [List.map_cons, List.mem_cons] at h
      rcases h with h | h
      · simp [upsert, hk, h]
      · simp only [upsert, hk, if_false, List.map_cons, List.mem_cons]
        exact Or.inr (ih h)

theorem assocGet_some_mem {α : Type} {l : List (String × α)} {k : String} {v : α}
    (h : assocGet l k = some v) : (k, v) ∈ l := by
  unfold assocGet at h
  cases hf : l.find? (fun p => decide (p.1 = k)) with
  | none => rw [hf] at h; cases h
  | some p =>
    rw [hf] at h
    have hp := List.find?_some hf
    have hm := List.mem_of_find?_eq_some hf
    have h2 : p.2 = v := Option.some.inj h
    have hp2 : p.1 = k := of_decide_eq_true hp
    have hpv : p = (k, v) := Prod.ext hp2 h2
    exact hpv ▸ hm

/-! ### Claims C9 and C10 -/

/-- Claim C9: calling `_register` twice with schemas sharing a namespace
leaves exactly one registry entry under that namespace, holding the second
call's arguments, and `isRegistered` of that namespace is true after either
call — registration is an upsert, never an append. -/
theorem register_last_write_wins (st : RegState)
    (hnd : (st.entries.map Prod.fst).Nodup) (mc₁ mc₂ : Option ModelClassV)
    (s₁ s₂ : ChimeraSchema) (d₁ d₂ : List (String × ChimeraSchema))
    (hname : s₁.name = s₂.name) :
    (((registerOp (registerOp st mc₁ s₁ d₁) mc₂ s₂ d₂).entries.filter
        (fun p => decide (p.1 = s₂.name))).length = 1) ∧
      assocGet (registerOp (registerOp st mc₁ s₁ d₁) mc₂ s₂ d₂).entries s₂.name =
        some ⟨mc₂, s₂, d₂⟩ ∧
      isRegistered (registerOp st mc₁ s₁ d₁) s₁.name = true ∧
      isRegistered (registerOp (registerOp st mc₁ s₁ d₁) mc₂ s₂ d₂) s₂.name = true := by
  have hcollapse : upsert (upsert st.entries s₁.name ⟨mc₁, s₁, d₁⟩) s₂.name ⟨mc₂, s₂, d₂⟩ =
      upsert st.entries s₂.name ⟨mc₂, s₂, d₂⟩ := by
    rw [hname]; exact upsert_upsert_same st.entries s₂.name _ _
  refine ⟨?_, ?_, ?_, ?_⟩
  · simp only [registerOp, hcollapse]
    exact countKey_upsert_nodup st.entries s₂.name _ hnd
  · simp only [registerOp, hcollapse]
    exact assocGet_upsert st.entries s₂.name _
  · simp [isRegistered, registerOp, any_key_upsert]
  · simp [isRegistered, registerOp, hcollapse, any_key_upsert]

/-- Witness for C9: two registrations of same-named schemas starting from
the fresh registry. -/
theorem register_last_write_wins_witness :
    (((registerOp (registerOp initState none (mkChimeraSchema "chimera.modelR") [])
          (some (.str "chimera.modelR")) (mkChimeraSchema "chimera.modelR") []).entries.filter
        (fun p => decide (p.1 = (mkChimeraSchema "chimera.modelR").name))).length = 1) ∧
      assocGet (registerOp (registerOp initState none (mkChimeraSchema "chimera.modelR") [])
          (some (.str "chimera.modelR")) (mkChimeraSchema "chimera.modelR") []).entries
          (mkChimeraSchema "chimera.modelR").name =
        some ⟨some (.str "chimera.modelR"), mkChimeraSchema "chimera.modelR", []⟩ ∧
      isRegistered (registerOp initState none (mkChimeraSchema "chimera.modelR") [])
        (mkChimeraSchema "chimera.modelR").name = true ∧
      isRegistered (registerOp (registerOp initState none (mkChimeraSchema "chimera.modelR") [])
          (some (.str "chimera.modelR")) (mkChimeraSchema "chimera.modelR") [])
        (mkChimeraSchema "chimera.modelR").name = true :=
  register_last_write_wins initState (by simp [initState]) none
    (some (.str "chimera.modelR")) (mkChimeraSchema "chimera.modelR")
    (mkChimeraSchema "chimera.modelR") [] [] rfl

/-- Claim C10: `isRegistered` tests the `in` operator against the registry
object, so on a fresh registry — whose set of registered namespaces is
empty — it already answers true for inherited `EventEmitter` and `Object`
prototype members such as "emit" and "constructor" and for the internal
own field "_modelCache"; it is not a membership test on the registered
schema namespaces. -/
theorem isRegistered_prototype_leak :
    isRegistered initState "emit" = true ∧
      isRegistered initState "constructor" = true ∧
      isRegistered initState "_modelCache" = true ∧
      initState.entries = [] := by
  refine ⟨by decide, by decide, by decide, rfl⟩

/-! ### Claim C8 -/

/-- The structural invariant maintained by discriminator-free, alias-free
registry histories: entry keys coincide with their schema names, every
entry is discriminator-free and alias-free, and every compiled mongoose
model name is a registered key. -/
def RegInvariant (st : RegState) : Prop :=
  (∀ p ∈ st.entries, p.2.schema.name = p.1 ∧ entryOk p.2) ∧
    ∀ n ∈ st.models, n ∈ st.entries.map Prod.fst

theorem regInvariant_register {st : RegState} {mc : Option ModelClassV}
    {s : ChimeraSchema} {d : List (String × ChimeraSchema)}
    (h : RegInvariant st) (he : entryOk ⟨mc, s, d⟩) :
    RegInvariant (registerOp st mc s d) := by
  constructor
  · intro p hp
    rcases mem_upsert hp with h' | h'
    · subst h'
      exact ⟨rfl, he⟩
    · exact h.1 p h'
  · intro n hn
    exact mem_keys_upsert_of_mem (h.2 n hn)

theorem entryOk_of_get {st : RegState} {ns : String} {e : Entry}
    (h : RegInvariant st) (hg : assocGet st.entries ns = some e) :
    e.schema.name = ns ∧ e.discriminators = [] ∧ ns ∈ st.entries.map Prod.fst := by
  have hm := assocGet_some_mem hg
  have h1 := h.1 (ns, e) hm
  exact ⟨h1.1, h1.2.1, List.mem_map.mpr ⟨(ns, e), hm, rfl⟩⟩

theorem regInvariant_models_step {st : RegState} {ms₁ : List String} {nm : String}
    (h : RegInvariant st) (hsub : ∀ n ∈ ms₁, n ∈ st.entries.map Prod.fst)
    (hnm : nm ∈ st.entries.map Prod.fst) :
    RegInvariant { st with models := ms₁ ++ [nm] } := by
  refine ⟨h.1, ?_⟩
  intro n hn
  rcases List.mem_append.mp hn with hn | hn
  · exact hsub n hn
  · rw [List.mem_singleton.mp hn]
    exact hnm

theorem compileMainLoop_ok : ∀ (scope : List String) {st st' : RegState},
    RegInvariant st → compileMainLoop st scope = .ok st' →
    RegInvariant st' ∧ st'.entries = st.entries := by
  intro scope
  induction scope with
  | nil =>
    intro st st' h hok
    simp only [compileMainLoop] at hok
    cases hok
    exact ⟨h, rfl⟩
  | cons ns rest ih =>
    intro st st' h hok
    simp only [compileMainLoop] at hok
    split at hok
    · cases hok
    · rename_i e hg
      obtain ⟨hname, hdisc, hkey⟩ := entryOk_of_get h hg
      rw [hdisc] at hok
      simp only [List.foldl_nil] at hok
      have hkn : e.schema.name ∈ st.entries.map Prod.fst := by
        rw [hname]; exact hkey
      by_cases hm : ns ∈ st.models
      · simp only [if_pos hm] at hok
        split at hok
        · cases hok
        · exact @ih { st with models := st.models.erase ns ++ [e.schema.name] } st'
            (regInvariant_models_step h
              (fun n hn => h.2 n (List.mem_of_mem_erase hn)) hkn) hok
      · simp only [if_neg hm] at hok
        split at hok
        · cases hok
        · exact @ih { st with models := st.models ++ [e.schema.name] } st'
            (regInvariant_models_step h (fun n hn => h.2 n hn) hkn) hok

theorem uncompiledName_of_entryOk {e : Entry} (he : entryOk e) :
    uncompiledName e.modelClass e.schema.name = .error .invalidModelName ∨
      uncompiledName e.modelClass e.schema.name = .ok e.schema.name := by
  cases hmc : e.modelClass with
  | none => right; simp [uncompiledName]
  | some mcv =>
    cases mcv with
    | cls => left; simp [uncompiledName]
    | str s =>
      rcases he.2 s hmc with hs | hs
      · right; simp [uncompiledName, hs]
      · right
        subst hs
        simp [uncompiledName]

theorem uncompiledLoop_ok : ∀ (scope : List String) {st st' : RegState},
    RegInvariant st → uncompiledLoop st scope = .ok st' → RegInvariant st' := by
  intro scope
  induction scope with
  | nil =>
    intro st st' h hok
    simp only [uncompiledLoop] at hok
    cases hok
    exact h
  | cons ns rest ih =>
    intro st st' h hok
    simp only [uncompiledLoop] at hok
    split at hok
    · exact ih h hok
    · split at hok
      · cases hok
      · rename_i e hg
        obtain ⟨hname, _, _⟩ := entryOk_of_get h hg
        have he : entryOk e := ((h.1 (ns, e) (assocGet_some_mem hg))).2
        split at hok
        · cases hok
        · rename_i mname hu
          have hm : mname = e.schema.name := by
            rcases uncompiledName_of_entryOk he with hu' | hu'
            · rw [hu'] at hu; cases hu
            · rw [hu'] at hu; exact (Except.ok.inj hu).symm
          split at hok
          · cases hok
          · have hkn : mname ∈ st.entries.map Prod.fst := by
              rw [hm, hname]
              exact List.mem_map.mpr ⟨(ns, e), assocGet_some_mem hg, rfl⟩
            exact @ih { st with models := st.models ++ [mname] } st'
              (regInvariant_models_step h (fun n hn => h.2 n hn) hkn) hok

theorem compileOp_inv {st st' : RegState} {arg : Option (List String)}
    (h : RegInvariant st) (hok : compileOp st arg = .ok st') : RegInvariant st' := by
  unfold compileOp at hok
  split at hok
  · cases hok
  · split at hok
    · cases hok
    · rename_i hml
      obtain ⟨h₁, _⟩ := compileMainLoop_ok _ h hml
      exact uncompiledLoop_ok _ h₁ hok

theorem regInvariant_mutate {st : RegState} {f : ChimeraSchema → ChimeraSchema}
    (h : RegInvariant st) (hf : ∀ sc, (f sc).name = sc.name) :
    RegInvariant { st with entries :=
      (st.entries.map (fun p => (p.1, { p.2 with schema := f p.2.schema }))) } := by
  constructor
  · intro p hp
    rcases List.mem_map.mp hp with ⟨q, hq, hpq⟩
    obtain ⟨hn, hok⟩ := h.1 q hq
    subst hpq
    refine ⟨by simpa [hf] using hn, ⟨hok.1, ?_⟩⟩
    intro s hs
    simpa [hf, hn] using hok.2 s hs
  · intro n hn
    have := h.2 n hn
    simpa [List.map_map, Function.comp] using this

theorem regInvariant_stepD {st st' : RegState} (h : RegInvariant st)
    (hs : StepD st st') : RegInvariant st' := by
  cases hs with
  | register mc s d he => exact regInvariant_register h he
  | compile arg st₂ hok => exact compileOp_inv h hok
  | mutateSchemas f hf => exact regInvariant_mutate h hf
  | setCache c => exact ⟨h.1, h.2⟩

theorem regInvariant_reachableD {st : RegState} (h : ReachableD st) :
    RegInvariant st := by
  induction h with
  | init =>
    exact ⟨fun p hp => absurd hp (List.not_mem_nil p),
      fun n hn => absurd hn (List.not_mem_nil n)⟩
  | step _ hs ih => exact regInvariant_stepD ih hs

/-- A registration carrying a discriminator, as static loading performs
for discriminated models, followed by a full compile. -/
def regStateDiscEx : RegState :=
  registerOp initState none (mkChimeraSchema "chimera.parent")
    [("chimera.child", mkChimeraSchema "chimera.child")]

/-- The registry state after compiling `regStateDiscEx`: both the parent
and the discriminator child are mongoose models, but only the parent is a
registry entry. -/
def regStateCE : RegState :=
  ⟨regStateDiscEx.entries, [], ["chimera.parent", "chimera.child"]⟩

/-- Claim C8, counterexample: a reachable registry state (register a schema
with one discriminator, then `_compile`) in which the discriminator's name
"chimera.child" is compiled into mongoose but is not a property of the
registry, so `isCompiled` is true while `isRegistered` is false. -/
theorem isCompiled_without_isRegistered :
    Reachable regStateCE ∧ isCompiled regStateCE "chimera.child" = true ∧
      isRegistered regStateCE "chimera.child" = false :=
  ⟨Reachable.step
      (Reachable.step Reachable.init
        (Step.register initState none (mkChimeraSchema "chimera.parent")
          [("chimera.child", mkChimeraSchema "chimera.child")]))
      (Step.compile regStateDiscEx none regStateCE rfl),
    by decide, by decide⟩

/-- Claim C8, amended: `isRegistered` is weaker than `isCompiled` on every
registry state reachable without discriminator declarations and without
string `modelClass` aliases differing from the schema name — the
discriminator counterexample shows the restriction is necessary. -/
theorem isCompiled_implies_isRegistered_discFree (st : RegState)
    (h : ReachableD st) (ns : String) (hc : isCompiled st ns = true) :
    isRegistered st ns = true := by
  have hinv := regInvariant_reachableD h
  have hns : ns ∈ st.models := by simpa [isCompiled] using hc
  rcases List.mem_map.mp (hinv.2 ns hns) with ⟨p, hp, hfst⟩
  have hany : st.entries.any (fun p => decide (p.1 = ns)) = true :=
    List.any_eq_true.mpr ⟨p, hp, by simp [hfst]⟩
  simp [isRegistered, hany]

/-- A discriminator-free register-then-compile run. -/
def regStateDF : RegState := registerOp initState none (mkChimeraSchema "chimera.modelD") []

/-- The state after compiling `regStateDF`. -/
def regStateDF' : RegState := ⟨regStateDF.entries, [], ["chimera.modelD"]⟩

/-- Witness for the amended C8: the implication applied to a concrete
discriminator-free reachable state in which "chimera.modelD" is
compiled. -/
theorem isCompiled_implies_isRegistered_discFree_witness :
    isRegistered regStateDF' "chimera.modelD" = true :=
  isCompiled_implies_isRegistered_discFree regStateDF'
    (ReachableD.step
      (ReachableD.step ReachableD.init
        (StepD.register initState none (mkChimeraSchema "chimera.modelD") []
          ⟨rfl, fun s hs => Option.noConfusion hs⟩))
      (StepD.compile regStateDF none regStateDF' rfl))
    "chimera.modelD" (by decide)

end Chimera
